import Mathlib

/-!
Shallow embedding of the tap-tycoon-server backend (referral ledger +
cloud-save store) and proofs about it.

The repository contains one PostgreSQL revision (`index.js`), two SQLite
revisions and one in-memory revision.  The three SQL-backed revisions share
the same referral logic (bot `/start` handler with a self-referral guard and
an insert-or-ignore on the unique `referred_id` column, `GET
/my-referrals/:userId`, `POST /claim-rewards`); they are embedded once below
as the `Ledger` model.  The in-memory revision (`server.js`: `POST
/referral`, `GET /rewards/:userId`, `POST /claim` over a plain object
`referralsDB`) has different behaviour and is embedded separately as the
`MemDB` model.  The SQLite revision with cloud saves (`user_saves` table,
`POST /save`, `GET /load/:userId`) is embedded as the `SaveStore` model.

Database rows are lists of records; SQL row order is immaterial for every
query the server issues, and the embedding keeps insertion order.  The
`TIMESTAMP` columns are modelled as `Nat` values supplied by the caller
(`CURRENT_TIMESTAMP` at the moment of the operation).  JavaScript values
arriving in JSON request bodies are modelled by `JSValue` (null, booleans,
integers, strings; JSON numbers in this API are integer ids, and objects or
arrays never appear where the claims look at truthiness).
-/

namespace TapTycoon

/-- A JavaScript value as it arrives in a parsed JSON request body. -/
inductive JSValue
  | jsNull
  | jsBool (b : Bool)
  | jsNum (n : Int)
  | jsStr (s : String)
deriving DecidableEq

/-- JavaScript truthiness: `null`, `false`, `0` and the empty string are
falsy; every other modelled value is truthy.  This is what the handlers'
bare negation checks such as `if (!userId)` test. -/
def jsTruthy : JSValue → Bool
  | .jsNull => false
  | .jsBool b => b
  | .jsNum n => decide (n ≠ 0)
  | .jsStr s => decide (s ≠ "")

/-- `String(v)` conversion of a JavaScript value, used when a value becomes
an object key (in-memory variant) or is bound into a TEXT column. -/
def jsToKey : JSValue → String
  | .jsNull => "null"
  | .jsBool b => if b then "true" else "false"
  | .jsNum n => toString n
  | .jsStr s => s

/-- Status column of the `referrals` table: `TEXT DEFAULT 'pending'`, only
ever set to `'claimed'` by the claim endpoint. -/
inductive RStatus
  | pending
  | claimed
deriving DecidableEq

/-- One row of the `referrals` table (the `id SERIAL` surrogate key plays no
role in any query and is omitted). -/
structure ReferralRecord where
  referrerId : String
  referredId : String
  status : RStatus
  createdAt : Nat
deriving DecidableEq

/-- The `referrals` table. -/
abbrev Ledger := List ReferralRecord

/-- The reward constant `REFERRER_REWARD = { money: 50000, gems: 5 }`. -/
def REFERRER_REWARD_money : Nat := 50000

/-- The gems component of `REFERRER_REWARD`. -/
def REFERRER_REWARD_gems : Nat := 5

/-- The bot `/start <code>` handler of the SQL revisions: drops the attempt
when `String(referredId) === String(referrerId)`, otherwise runs
`INSERT ... ON CONFLICT (referred_id) DO NOTHING` (PostgreSQL) /
`INSERT OR IGNORE` (SQLite) against the unique `referred_id` column.
Returns the new table and whether a row was inserted (`rowCount > 0` /
`this.changes > 0`). -/
def recordReferral (db : Ledger) (referrerId referredId : String) (now : Nat) :
    Ledger × Bool :=
  if referredId = referrerId then (db, false)
  else if db.any (fun r => decide (r.referredId = referredId)) then (db, false)
  else (db ++ [{ referrerId := referrerId, referredId := referredId,
                 status := RStatus.pending, createdAt := now }], true)

/-- Response body of `GET /my-referrals/:userId`. -/
structure Stats where
  friendsInvited : Nat
  unclaimedCount : Nat
  unclaimedMoney : Nat
  unclaimedGems : Nat
deriving DecidableEq

/-- `GET /my-referrals/:userId`: `SELECT status FROM referrals WHERE
referrer_id = ?`, then counts the rows and the `'pending'` subset and
multiplies by the reward constant. -/
def getStats (db : Ledger) (userId : String) : Stats :=
  let rows := db.filter (fun r => decide (r.referrerId = userId))
  let unclaimedCount :=
    (rows.filter (fun r => decide (r.status = RStatus.pending))).length
  { friendsInvited := rows.length
    unclaimedCount := unclaimedCount
    unclaimedMoney := unclaimedCount * REFERRER_REWARD_money
    unclaimedGems := unclaimedCount * REFERRER_REWARD_gems }

/-- Number of rows `WHERE referrer_id = userId AND status = 'pending'`. -/
def pendingCount (db : Ledger) (userId : String) : Nat :=
  db.countP (fun r =>
    decide (r.referrerId = userId ∧ r.status = RStatus.pending))

/-- Effect of `UPDATE referrals SET status = 'claimed' WHERE referrer_id = ?
AND status = 'pending'` on a single row. -/
def claimOne (userId : String) (r : ReferralRecord) : ReferralRecord :=
  if r.referrerId = userId ∧ r.status = RStatus.pending then
    { r with status := RStatus.claimed }
  else r

/-- Reward part of the `POST /claim-rewards` 200 response. -/
structure ClaimResult where
  claimedCount : Nat
  money : Nat
  gems : Nat
deriving DecidableEq

/-- Core of `POST /claim-rewards`: the single atomic `UPDATE` statement.
`rowCount` (pg) / `this.changes` (sqlite) is the number of rows the update
touched, i.e. the rows of this referrer that were still `'pending'`. -/
def claimRewards (db : Ledger) (userId : String) : Ledger × ClaimResult :=
  let n := pendingCount db userId
  (db.map (claimOne userId),
   { claimedCount := n
     money := n * REFERRER_REWARD_money
     gems := n * REFERRER_REWARD_gems })

/-- Response of `POST /claim-rewards`: 200 with counts and rewards, or 400
`{error: 'userId is required'}` when the body's `userId` is falsy. -/
inductive ClaimResponse
  | ok (res : ClaimResult)
  | badRequest
deriving DecidableEq

/-- `POST /claim-rewards` handler: validates `if (!userId)` (400, no
database access), then runs the atomic claim `UPDATE` and answers 200. -/
def postClaimRewards (db : Ledger) (userId : JSValue) : Ledger × ClaimResponse :=
  if !jsTruthy userId then (db, ClaimResponse.badRequest)
  else
    let r := claimRewards db (jsToKey userId)
    (r.1, ClaimResponse.ok r.2)

/-! ## The cloud-save store (SQLite revision with `user_saves`)

One row per `user_id TEXT PRIMARY KEY`.  The handler stores
`JSON.stringify(gameState)` in the `game_state TEXT` column and `GET
/load/:userId` answers with `JSON.parse(row.game_state)`; the spec assumes
this serialization round-trips unchanged, so the embedding keeps the parsed
payload in the record.  `JSON.stringify` of any modelled value is a
non-empty string, so the handler's `row && row.game_state` truthiness test
succeeds exactly when a row exists. -/

/-- One row of the `user_saves` table. -/
structure SaveRecord where
  userId : String
  gameState : JSValue
  lastSaved : Nat
deriving DecidableEq

/-- The `user_saves` table. -/
abbrev SaveStore := List SaveRecord

/-- `SELECT game_state FROM user_saves WHERE user_id = ?` (`db.get`: first
matching row). -/
def findSave (store : SaveStore) (key : String) : Option SaveRecord :=
  store.find? (fun r => decide (r.userId = key))

/-- `INSERT OR REPLACE INTO user_saves (user_id, game_state, last_saved)
VALUES (?, ?, CURRENT_TIMESTAMP)`: the conflicting row for this primary key
(if any) is deleted and the fresh row is inserted. -/
def upsertSave (store : SaveStore) (key : String) (gs : JSValue) (now : Nat) :
    SaveStore :=
  store.filter (fun r => decide (r.userId ≠ key)) ++
    [{ userId := key, gameState := gs, lastSaved := now }]

/-- Response of `POST /save`: 200 `{success: true}`, or 400
`{error: 'userId and gameState are required.'}`. -/
inductive SaveResponse
  | saved
  | badRequest
deriving DecidableEq

/-- `POST /save` handler: validates `if (!userId || !gameState)` (400, no
database access), then upserts and answers 200. -/
def postSave (store : SaveStore) (userId gameState : JSValue) (now : Nat) :
    SaveStore × SaveResponse :=
  if !jsTruthy userId || !jsTruthy gameState then (store, SaveResponse.badRequest)
  else (upsertSave store (jsToKey userId) gameState now, SaveResponse.saved)

/-- Response of `GET /load/:userId`: 200 with the saved payload, 404
`{message: 'No save data found for this user.'}`, or 400 (the handler's
guard for a missing path parameter). -/
inductive LoadResult
  | ok (payload : JSValue)
  | notFound
  | badRequest
deriving DecidableEq

/-- `GET /load/:userId` handler: guard `if (!userId)` (the path parameter is
a string, falsy only when empty), then `db.get` on `user_saves`; a found row
answers 200 with the parsed payload, no row answers 404. -/
def getLoad (store : SaveStore) (userId : String) : LoadResult :=
  if userId = "" then LoadResult.badRequest
  else
    match findSave store userId with
    | some row => LoadResult.ok row.gameState
    | none => LoadResult.notFound

/-! ## The in-memory revision (`server.js`)

`const referralsDB = {}` maps a referrer key (`String(referrerId)`) to
`{ rewardsToClaim, referrals }`.  Embedded as an association list in
insertion order. -/

/-- One value of the `referralsDB` object. -/
structure MemEntry where
  rewardsToClaim : Nat
  referrals : List String
deriving DecidableEq

/-- The in-memory `referralsDB` object. -/
abbrev MemDB := List (String × MemEntry)

/-- Property lookup `referralsDB[k]`. -/
def memFind (db : MemDB) (k : String) : Option MemEntry :=
  (db.find? (fun p => decide (p.1 = k))).map (fun p => p.2)

/-- `if (!referralsDB[k]) referralsDB[k] = { rewardsToClaim: 0, referrals: [] }`. -/
def memEnsure (db : MemDB) (k : String) : MemDB :=
  match memFind db k with
  | some _ => db
  | none => db ++ [(k, { rewardsToClaim := 0, referrals := [] })]

/-- In-place mutation of the entry stored under key `k`. -/
def memUpdate (db : MemDB) (k : String) (f : MemEntry → MemEntry) : MemDB :=
  db.map (fun p => if p.1 = k then (p.1, f p.2) else p)

/-- Response of `POST /referral`: 200 'Referral recorded successfully',
200 'Referral already recorded.', or 400 'Missing referrerId or refereeId'. -/
inductive MemReferralResponse
  | recorded
  | alreadyRecorded
  | missingFields
deriving DecidableEq

/-- `POST /referral` handler of the in-memory revision: validates both body
fields, creates the referrer's entry when absent, then — unless `refereeId`
already appears in **this referrer's** `referrals` array — increments
`rewardsToClaim` and pushes the referee.  There is no self-referral guard
and no cross-referrer duplicate check. -/
def memPostReferral (db : MemDB) (referrerId refereeId : JSValue) :
    MemDB × MemReferralResponse :=
  if !jsTruthy referrerId || !jsTruthy refereeId then
    (db, MemReferralResponse.missingFields)
  else
    let rk := jsToKey referrerId
    let fk := jsToKey refereeId
    let db1 := memEnsure db rk
    let entry := (memFind db1 rk).getD { rewardsToClaim := 0, referrals := [] }
    if fk ∈ entry.referrals then (db1, MemReferralResponse.alreadyRecorded)
    else
      (memUpdate db1 rk (fun e =>
        { rewardsToClaim := e.rewardsToClaim + 1,
          referrals := e.referrals ++ [fk] }),
       MemReferralResponse.recorded)

/-- Response of `GET /rewards/:userId`: the user's entry, the all-zero
default for an unknown user, or 400 for a missing path parameter. -/
inductive MemRewardsResponse
  | ok (e : MemEntry)
  | missingUser
deriving DecidableEq

/-- `GET /rewards/:userId` handler: `referralsDB[userId]` when present,
otherwise `{ rewardsToClaim: 0, referrals: [] }`. -/
def memGetRewards (db : MemDB) (userId : String) : MemRewardsResponse :=
  if userId = "" then MemRewardsResponse.missingUser
  else
    MemRewardsResponse.ok
      ((memFind db userId).getD { rewardsToClaim := 0, referrals := [] })

/-- Response of `POST /claim`: 200 'Rewards claimed successfully',
400 'No rewards to claim', or 400 'Missing userId'. -/
inductive MemClaimResponse
  | claimed
  | noRewards
  | missingUser
deriving DecidableEq

/-- `POST /claim` handler of the in-memory revision: validates `userId`,
then `if (!userData || userData.rewardsToClaim === 0)` answers **400** 'No
rewards to claim'; otherwise zeroes `rewardsToClaim`. -/
def memPostClaim (db : MemDB) (userId : JSValue) : MemDB × MemClaimResponse :=
  if !jsTruthy userId then (db, MemClaimResponse.missingUser)
  else
    let k := jsToKey userId
    match memFind db k with
    | none => (db, MemClaimResponse.noRewards)
    | some e =>
      if e.rewardsToClaim = 0 then (db, MemClaimResponse.noRewards)
      else (memUpdate db k (fun e => { e with rewardsToClaim := 0 }),
            MemClaimResponse.claimed)

/-! ## Sequential executions of the claim endpoint

Each `POST /claim-rewards` call is one SQL `UPDATE`, a single atomic
persistence operation, so any set of concurrent calls for the same referrer
is observed as some serialization of atomic `claimRewards` steps.
`claimMany` runs `n` such calls back to back and adds up the returned
`claimedCount`s. -/

/-- `n` back-to-back `claimRewards` calls for the same referrer; returns the
final table and the sum of the returned claimed counts. -/
def claimMany (db : Ledger) (a : String) : Nat → Ledger × Nat
  | 0 => (db, 0)
  | n + 1 =>
    let r := claimRewards db a
    let s := claimMany r.1 a n
    (s.1, r.2.claimedCount + s.2)

/-- A run of bot referral events for one referrer: each pair is the referred
user's id with the timestamp of its event, applied in order. -/
def recordAll (db : Ledger) (a : String) (bs : List (String × Nat)) : Ledger :=
  bs.foldl (fun d p => (recordReferral d a p.1 p.2).1) db

/-- Every event in the run inserted a row (`rowCount > 0`) when applied in
order. -/
def allSucceed (db : Ledger) (a : String) : List (String × Nat) → Bool
  | [] => true
  | p :: ps =>
    (recordReferral db a p.1 p.2).2 &&
      allSucceed (recordReferral db a p.1 p.2).1 a ps

/-! ## Helper lemmas -/

/-- Concrete rows used by the witness theorems. -/
def rowA : ReferralRecord :=
  { referrerId := "100", referredId := "200",
    status := RStatus.pending, createdAt := 0 }

/-- A second concrete row for referrer "100". -/
def rowB : ReferralRecord :=
  { referrerId := "100", referredId := "300",
    status := RStatus.pending, createdAt := 1 }

/-- A concrete row owned by an unrelated referrer. -/
def rowC : ReferralRecord :=
  { referrerId := "7", referredId := "8",
    status := RStatus.pending, createdAt := 4 }

theorem claimOne_not_pending (a : String) (r : ReferralRecord) :
    ¬((claimOne a r).referrerId = a ∧ (claimOne a r).status = RStatus.pending) := by
  unfold claimOne
  by_cases h : r.referrerId = a ∧ r.status = RStatus.pending
  · simp [h]
  · rw [if_neg h]
    exact h

theorem pendingCount_after_claim (db : Ledger) (a : String) :
    pendingCount (db.map (claimOne a)) a = 0 := by
  unfold pendingCount
  rw [List.countP_eq_zero]
  intro r hr
  rw [List.mem_map] at hr
  obtain ⟨r0, _, rfl⟩ := hr
  simpa using claimOne_not_pending a r0

theorem claimOne_map_id (db : Ledger) (k : String)
    (h : pendingCount db k = 0) : db.map (claimOne k) = db := by
  induction db with
  | nil => rfl
  | cons r t ih =>
    rw [pendingCount, List.countP_cons] at h
    have h1 : t.countP
        (fun r => decide (r.referrerId = k ∧ r.status = RStatus.pending)) = 0 :=
      Nat.eq_zero_of_add_eq_zero_right h
    have h2 : ¬(r.referrerId = k ∧ r.status = RStatus.pending) := by
      intro hc
      simp [hc] at h
    simp only [List.map_cons]
    rw [ih h1]
    have : claimOne k r = r := by simp [claimOne, h2]
    rw [this]

theorem claimMany_sum_zero (a : String) (m : Nat) (db : Ledger)
    (h : pendingCount db a = 0) : (claimMany db a m).2 = 0 := by
  induction m generalizing db with
  | zero => rfl
  | succ m ih =>
    show (claimRewards db a).2.claimedCount +
      (claimMany (claimRewards db a).1 a m).2 = 0
    have hc : (claimRewards db a).2.claimedCount = 0 := h
    have hdb : pendingCount (claimRewards db a).1 a = 0 :=
      pendingCount_after_claim db a
    rw [hc, ih _ hdb]

/-- A successful insert (`rowCount > 0`) tells us the guard did not fire,
no row with this `referred_id` existed, and the new table is the old one
plus one fresh pending row. -/
theorem recordReferral_success_eq (db : Ledger) (a b : String) (now : Nat)
    (h : (recordReferral db a b now).2 = true) :
    (recordReferral db a b now).1 =
      db ++ [{ referrerId := a, referredId := b,
               status := RStatus.pending, createdAt := now }] ∧
    b ≠ a ∧ db.any (fun r => decide (r.referredId = b)) = false := by
  by_cases h1 : b = a
  · rw [recordReferral, if_pos h1] at h
    exact Bool.noConfusion h
  · by_cases h2 : db.any (fun r => decide (r.referredId = b)) = true
    · rw [recordReferral, if_neg h1] at h
      simp [h2] at h
    · have h2f : db.any (fun r => decide (r.referredId = b)) = false :=
        Bool.eq_false_iff.mpr h2
      refine ⟨?_, h1, h2f⟩
      rw [recordReferral, if_neg h1]
      simp [h2f]

/-- Auxiliary: `find?` skips a prefix on which it fails. -/
theorem find?_append_of_none {α : Type} (p : α → Bool) (l₁ l₂ : List α)
    (h : l₁.find? p = none) : (l₁ ++ l₂).find? p = l₂.find? p := by
  induction l₁ with
  | nil => rfl
  | cons x t ih =>
    by_cases hx : p x = true
    · rw [List.find?_cons_of_pos _ hx] at h
      cases h
    · rw [List.find?_cons_of_neg _ hx] at h
      rw [List.cons_append, List.find?_cons_of_neg _ hx]
      exact ih h

/-- Auxiliary: the rows kept by the upsert's delete phase never match the
upserted key. -/
theorem findSave_filter_ne (store : SaveStore) (key : String) :
    (store.filter (fun r => decide (r.userId ≠ key))).find?
      (fun r => decide (r.userId = key)) = none := by
  rw [List.find?_eq_none]
  intro r hr
  rw [List.mem_filter] at hr
  simpa using hr.2

/-! ## Claim theorems -/

/-- C2: `recordReferral(a, a)` is a no-op for every user `a`: the guard
`String(referredId) === String(referrerId)` returns before any insert, so no
record is created, the table is unchanged (hence any subsequent `getStats a`
is unaffected), and no error is raised. -/
theorem recordReferral_self_noop (db : Ledger) (a : String) (now : Nat) :
    recordReferral db a a now = (db, false) ∧
    getStats (recordReferral db a a now).1 a = getStats db a := by
  have h : recordReferral db a a now = (db, false) := by
    unfold recordReferral
    simp
  exact ⟨h, by rw [h]⟩

/-- C3: `claimRewards(a)` turns every `pending` record owned by `a` into
`claimed`, returns `claimedCount` equal to the number of records that were
pending together with rewards of `claimedCount × 50000` money and
`claimedCount × 5` gems, and an immediately following `claimRewards(a)`
returns `claimedCount = 0`. -/
theorem claimRewards_claims_all_pending (db : Ledger) (a : String) :
    (claimRewards db a).2.claimedCount = pendingCount db a ∧
    (claimRewards db a).2.money = (claimRewards db a).2.claimedCount * 50000 ∧
    (claimRewards db a).2.gems = (claimRewards db a).2.claimedCount * 5 ∧
    (∀ r ∈ (claimRewards db a).1, r.referrerId = a →
      r.status = RStatus.claimed) ∧
    (claimRewards (claimRewards db a).1 a).2.claimedCount = 0 := by
  refine ⟨rfl, rfl, rfl, ?_, ?_⟩
  · intro r hr hra
    have hmem : r ∈ db.map (claimOne a) := hr
    rw [List.mem_map] at hmem
    obtain ⟨r0, _, rfl⟩ := hmem
    have := claimOne_not_pending a r0
    rw [not_and] at this
    have hnp := this hra
    cases hst : (claimOne a r0).status with
    | pending => exact absurd hst hnp
    | claimed => rfl
  · show pendingCount (db.map (claimOne a)) a = 0
    exact pendingCount_after_claim db a

/-- C8: concurrent `claimRewards` calls for one referrer are observed as a
serialization of atomic claim updates (each call is a single SQL `UPDATE`);
for every such serialization of `n ≥ 1` calls against the table, the sum of
the returned `claimedCount`s is exactly the number of records that were
pending at the start — no record is double-counted or double-rewarded. -/
theorem claimMany_sum_eq_pending (db : Ledger) (a : String) (n : Nat)
    (h : 1 ≤ n) : (claimMany db a n).2 = pendingCount db a := by
  cases n with
  | zero => exact absurd h (by decide)
  | succ m =>
    show (claimRewards db a).2.claimedCount +
      (claimMany (claimRewards db a).1 a m).2 = pendingCount db a
    have hz : pendingCount (claimRewards db a).1 a = 0 :=
      pendingCount_after_claim db a
    rw [claimMany_sum_zero a m (claimRewards db a).1 hz]
    rfl

/-- Witness for C8 at a concrete input: two simultaneous claim calls over a
table with two pending records for referrer "100" return counts summing to
2. -/
theorem claimMany_sum_eq_pending_witness :
    1 ≤ 2 ∧ (claimMany [rowA, rowB] "100" 2).2 = pendingCount [rowA, rowB] "100" :=
  ⟨by decide, claimMany_sum_eq_pending [rowA, rowB] "100" 2 (by decide)⟩

/-- C9: frame property of `claimRewards(a)`: the table keeps its length (no
insert, no delete) and every row keeps its `referrer_id`, `referred_id` and
`created_at`; a row of another referrer is completely unchanged, `a`'s
already-claimed rows are completely unchanged, and the only mutation is the
status flip of `a`'s pending rows. -/
theorem claimRewards_frame (db : Ledger) (a : String) (i : Nat)
    (h : i < db.length) :
    ((claimRewards db a).1).length = db.length ∧
    ∀ h2 : i < ((claimRewards db a).1).length,
      (((claimRewards db a).1).get ⟨i, h2⟩).referrerId =
        (db.get ⟨i, h⟩).referrerId ∧
      (((claimRewards db a).1).get ⟨i, h2⟩).referredId =
        (db.get ⟨i, h⟩).referredId ∧
      (((claimRewards db a).1).get ⟨i, h2⟩).createdAt =
        (db.get ⟨i, h⟩).createdAt ∧
      ((db.get ⟨i, h⟩).referrerId ≠ a →
        ((claimRewards db a).1).get ⟨i, h2⟩ = db.get ⟨i, h⟩) ∧
      ((db.get ⟨i, h⟩).referrerId = a ∧
          (db.get ⟨i, h⟩).status = RStatus.pending →
        ((claimRewards db a).1).get ⟨i, h2⟩ =
          { db.get ⟨i, h⟩ with status := RStatus.claimed }) ∧
      ((db.get ⟨i, h⟩).referrerId = a ∧
          (db.get ⟨i, h⟩).status = RStatus.claimed →
        ((claimRewards db a).1).get ⟨i, h2⟩ = db.get ⟨i, h⟩) := by
  constructor
  · show (db.map (claimOne a)).length = db.length
    exact List.length_map db (claimOne a)
  · intro h2
    have hget : ((claimRewards db a).1).get ⟨i, h2⟩ =
        claimOne a (db.get ⟨i, h⟩) := by
      show (db.map (claimOne a)).get ⟨i, h2⟩ = claimOne a (db.get ⟨i, h⟩)
      simp [List.get_eq_getElem, List.getElem_map]
    rw [hget]
    unfold claimOne
    by_cases hc : (db.get ⟨i, h⟩).referrerId = a ∧
        (db.get ⟨i, h⟩).status = RStatus.pending
    · rw [if_pos hc]
      refine ⟨rfl, rfl, rfl, ?_, ?_, ?_⟩
      · intro hne
        exact absurd hc.1 hne
      · intro _
        rfl
      · intro hcl
        rw [hc.2] at hcl
        exact absurd hcl.2 (by decide)
    · rw [if_neg hc]
      refine ⟨rfl, rfl, rfl, ?_, ?_, ?_⟩
      · intro _
        rfl
      · intro hcc
        exact absurd hcc hc
      · intro _
        rfl

/-- Witness for C9 at a concrete input: row 0 of a one-row table for another
referrer is untouched by a claim for "100". -/
theorem claimRewards_frame_witness :
    (0 : Nat) < ([rowC] : Ledger).length ∧
    ((claimRewards [rowC] "100").1).length = ([rowC] : Ledger).length :=
  ⟨by decide, (claimRewards_frame [rowC] "100" 0 (by decide)).1⟩

/-- C10: a present-but-falsy field is treated as missing: `POST
/claim-rewards` with a falsy `userId` (0, the empty string, `false` or
`null`) and `POST /save` with a falsy `userId` or `gameState` answer 400
before touching storage, leaving the store unchanged. -/
theorem falsy_field_rejected (db : Ledger) (store : SaveStore) (v w : JSValue)
    (now : Nat) (hv : jsTruthy v = false) :
    postClaimRewards db v = (db, ClaimResponse.badRequest) ∧
    postSave store v w now = (store, SaveResponse.badRequest) ∧
    postSave store w v now = (store, SaveResponse.badRequest) ∧
    jsTruthy JSValue.jsNull = false ∧
    jsTruthy (JSValue.jsBool false) = false ∧
    jsTruthy (JSValue.jsNum 0) = false ∧
    jsTruthy (JSValue.jsStr "") = false := by
  refine ⟨?_, ?_, ?_, rfl, rfl, by decide, by decide⟩
  · simp [postClaimRewards, hv]
  · simp [postSave, hv]
  · simp [postSave, hv]

/-- Witness for C10 at a concrete input: `userId: 0` is rejected with the
store unchanged. -/
theorem falsy_field_rejected_witness :
    jsTruthy (JSValue.jsNum 0) = false ∧
    postClaimRewards [] (JSValue.jsNum 0) = ([], ClaimResponse.badRequest) :=
  ⟨by decide,
   (falsy_field_rejected [] [] (JSValue.jsNum 0) (JSValue.jsStr "s") 0
     (by decide)).1⟩

/-- C1 counterexample: in the in-memory revision, after `"100"` refers
`"200"`, a later referral of the same `"200"` by `"300"` is accepted and
recorded again — the duplicate check is per referrer, so the referred id is
not globally unique and the first writer does not win. -/
theorem inMemory_second_referrer_records_again :
    (memPostReferral (memPostReferral [] (JSValue.jsStr "100")
        (JSValue.jsStr "200")).1 (JSValue.jsStr "300") (JSValue.jsStr "200")).2 =
      MemReferralResponse.recorded ∧
    memGetRewards (memPostReferral (memPostReferral [] (JSValue.jsStr "100")
        (JSValue.jsStr "200")).1 (JSValue.jsStr "300") (JSValue.jsStr "200")).1
        "100" =
      MemRewardsResponse.ok { rewardsToClaim := 1, referrals := ["200"] } ∧
    memGetRewards (memPostReferral (memPostReferral [] (JSValue.jsStr "100")
        (JSValue.jsStr "200")).1 (JSValue.jsStr "300") (JSValue.jsStr "200")).1
        "300" =
      MemRewardsResponse.ok { rewardsToClaim := 1, referrals := ["200"] } := by
  decide

/-- C1 (amended): in the SQL-backed revisions first writer wins permanently:
after a successful `recordReferral(a, b)`, a later `recordReferral(c, b)`
with `c ≠ b` inserts nothing and leaves the table unchanged, the only row
with `referred_id = b` has `referrer_id = a`, and uniqueness of
`referred_id` is preserved. -/
theorem recordReferral_first_writer_wins (db : Ledger) (a b c : String)
    (n1 n2 : Nat) (hsucc : (recordReferral db a b n1).2 = true)
    (hcb : c ≠ b) :
    recordReferral (recordReferral db a b n1).1 c b n2 =
      ((recordReferral db a b n1).1, false) ∧
    (∀ r ∈ (recordReferral db a b n1).1, r.referredId = b →
      r.referrerId = a) ∧
    ((db.map (fun r => r.referredId)).Nodup →
      (((recordReferral db a b n1).1).map (fun r => r.referredId)).Nodup) := by
  obtain ⟨heq, hba, hany⟩ := recordReferral_success_eq db a b n1 hsucc
  refine ⟨?_, ?_, ?_⟩
  · rw [heq, recordReferral]
    have hbc : ¬ b = c := fun h => hcb h.symm
    rw [if_neg hbc]
    have hone : (db ++ [({ referrerId := a, referredId := b, status := RStatus.pending, createdAt := n1 } : ReferralRecord)]).any (fun r => decide (r.referredId = b)) = true := by
      rw [List.any_append]
      simp
    simp [hone]
  · intro r hr hrb
    rw [heq, List.mem_append] at hr
    cases hr with
    | inl hmem =>
      exfalso
      have : db.any (fun r => decide (r.referredId = b)) = true :=
        List.any_eq_true.mpr ⟨r, hmem, by simpa using hrb⟩
      rw [hany] at this
      exact absurd this (by decide)
    | inr hmem =>
      rw [List.mem_singleton] at hmem
      rw [hmem]
  · intro hnd
    rw [heq, List.map_append]
    rw [List.nodup_append]
    refine ⟨hnd, by simp, ?_⟩
    intro x hx hx'
    simp only [List.map_cons, List.map_nil, List.mem_singleton] at hx'
    rw [List.mem_map] at hx
    obtain ⟨r, hr, hrx⟩ := hx
    have : db.any (fun r => decide (r.referredId = b)) = true :=
      List.any_eq_true.mpr ⟨r, hr, by simp [hrx, hx']⟩
    rw [hany] at this
    exact Bool.noConfusion this

/-- Witness for the amended C1 at a concrete input. -/
theorem recordReferral_first_writer_wins_witness :
    (recordReferral [] "100" "200" 0).2 = true ∧ ("300" : String) ≠ "200" ∧
    recordReferral (recordReferral [] "100" "200" 0).1 "300" "200" 1 =
      ((recordReferral [] "100" "200" 0).1, false) :=
  ⟨by decide, by decide,
   (recordReferral_first_writer_wins [] "100" "200" "300" 0 1 (by decide)
     (by decide)).1⟩

/-- C2 counterexample: the in-memory `/referral` handler has no self-referral
guard: `referrerId = refereeId = "100"` is accepted, creates a record and
changes the stats of `"100"`. -/
theorem inMemory_self_referral_recorded :
    memPostReferral [] (JSValue.jsStr "100") (JSValue.jsStr "100") =
      ([("100", { rewardsToClaim := 1, referrals := ["100"] })],
       MemReferralResponse.recorded) ∧
    memGetRewards (memPostReferral [] (JSValue.jsStr "100")
        (JSValue.jsStr "100")).1 "100" =
      MemRewardsResponse.ok { rewardsToClaim := 1, referrals := ["100"] } := by
  decide

/-- Step lemma: a successful referral insert for referrer `a` raises both
counters of `a`'s stats by one. -/
theorem getStats_record_success (db : Ledger) (a b : String) (now : Nat)
    (h : (recordReferral db a b now).2 = true) :
    getStats (recordReferral db a b now).1 a =
      { friendsInvited := (getStats db a).friendsInvited + 1
        unclaimedCount := (getStats db a).unclaimedCount + 1
        unclaimedMoney := ((getStats db a).unclaimedCount + 1) * 50000
        unclaimedGems := ((getStats db a).unclaimedCount + 1) * 5 } := by
  obtain ⟨heq, -, -⟩ := recordReferral_success_eq db a b now h
  rw [heq]
  simp [getStats, List.filter_append, REFERRER_REWARD_money,
    REFERRER_REWARD_gems]

/-- Generalized induction for C4: from an all-pending snapshot with `j`
rows, a run of successful referral events adds its length to each counter. -/
theorem getStats_recordAll_aux (a : String) (bs : List (String × Nat)) :
    ∀ db j, getStats db a =
      { friendsInvited := j, unclaimedCount := j,
        unclaimedMoney := j * 50000, unclaimedGems := j * 5 } →
    allSucceed db a bs = true →
    getStats (recordAll db a bs) a =
      { friendsInvited := j + bs.length, unclaimedCount := j + bs.length,
        unclaimedMoney := (j + bs.length) * 50000,
        unclaimedGems := (j + bs.length) * 5 } := by
  induction bs with
  | nil =>
    intro db j hdb _
    simpa [recordAll] using hdb
  | cons p ps ih =>
    intro db j hdb hs
    rw [allSucceed, Bool.and_eq_true] at hs
    have hstep := getStats_record_success db a p.1 p.2 hs.1
    rw [hdb] at hstep
    simp only [] at hstep
    have hrest := ih (recordReferral db a p.1 p.2).1 (j + 1) hstep hs.2
    have hfold : recordAll db a (p :: ps) =
        recordAll (recordReferral db a p.1 p.2).1 a ps := rfl
    rw [hfold, hrest]
    have hlen : (p :: ps).length = ps.length + 1 := rfl
    rw [hlen]
    refine congrArg₂ (fun x y => Stats.mk x x ((x : Nat) * 50000) (y * 5))
      ?_ ?_ <;> omega

/-- C4: after `k` distinct successful `recordReferral(a, ·)` calls starting
from a table with no rows for `a` and with no claims in between,
`getStats(a)` reports `friendsInvited = k`, `unclaimedCount = k` and the
reward `k × 50000` money, `k × 5` gems; and a referrer with no rows gets
all-zero stats (not an error) to begin with. -/
theorem getStats_after_referrals (db : Ledger) (a : String)
    (bs : List (String × Nat)) (hz : ∀ r ∈ db, r.referrerId ≠ a)
    (hs : allSucceed db a bs = true) :
    getStats db a =
      { friendsInvited := 0, unclaimedCount := 0,
        unclaimedMoney := 0, unclaimedGems := 0 } ∧
    getStats (recordAll db a bs) a =
      { friendsInvited := bs.length, unclaimedCount := bs.length,
        unclaimedMoney := bs.length * 50000,
        unclaimedGems := bs.length * 5 } := by
  have hfil : db.filter (fun r => decide (r.referrerId = a)) = [] := by
    rw [List.filter_eq_nil_iff]
    intro r hr
    simpa using hz r hr
  have h0 : getStats db a =
      { friendsInvited := 0, unclaimedCount := 0,
        unclaimedMoney := 0, unclaimedGems := 0 } := by
    simp [getStats, hfil]
  refine ⟨h0, ?_⟩
  have := getStats_recordAll_aux a bs db 0 (by simpa using h0) hs
  simpa using this

/-- Witness for C4 at a concrete input: two successful referrals from an
empty table. -/
theorem getStats_after_referrals_witness :
    allSucceed [] "100" [("200", 0), ("300", 1)] = true ∧
    getStats (recordAll [] "100" [("200", 0), ("300", 1)]) "100" =
      { friendsInvited := 2, unclaimedCount := 2,
        unclaimedMoney := 100000, unclaimedGems := 10 } := by
  refine ⟨by decide, ?_⟩
  have h := getStats_after_referrals [] "100" [("200", 0), ("300", 1)]
    (by simp) (by decide)
  simpa using h.2

/-- C5 counterexample: in the in-memory revision, `POST /claim` for a user
whose entry has zero pending rewards answers the **400** response 'No
rewards to claim' — an error response for an expected no-op condition. -/
theorem inMemory_zero_claim_is_error :
    memPostClaim [("100", { rewardsToClaim := 0, referrals := ["200"] })]
      (JSValue.jsStr "100") =
    ([("100", { rewardsToClaim := 0, referrals := ["200"] })],
     MemClaimResponse.noRewards) := by
  decide

/-- C5 (amended): self-referral, duplicate referred-id, claiming with zero
pending records through the SQL `/claim-rewards` endpoint, and loading a
non-existent save all produce non-error no-op responses (200 with a zero
count, or the 404 not-found message) and leave the store unchanged; the
in-memory `/claim` endpoint is the exception recorded by the
counterexample. -/
theorem expected_noops_not_errors (db : Ledger) (store : SaveStore)
    (a b c u : String) (uv : JSValue) (t1 t2 : Nat)
    (hdup : ∃ r ∈ db, r.referredId = b)
    (huv : jsTruthy uv = true)
    (hzero : pendingCount db (jsToKey uv) = 0)
    (hu : u ≠ "") (hnf : findSave store u = none) :
    recordReferral db a a t1 = (db, false) ∧
    recordReferral db c b t2 = (db, false) ∧
    postClaimRewards db uv =
      (db, ClaimResponse.ok { claimedCount := 0, money := 0, gems := 0 }) ∧
    getLoad store u = LoadResult.notFound := by
  refine ⟨?_, ?_, ?_, ?_⟩
  · unfold recordReferral
    simp
  · rw [recordReferral]
    by_cases hbc : b = c
    · rw [if_pos hbc]
    · rw [if_neg hbc]
      have hany : db.any (fun r => decide (r.referredId = b)) = true := by
        obtain ⟨r, hr, hrb⟩ := hdup
        exact List.any_eq_true.mpr ⟨r, hr, by simp [hrb]⟩
      simp [hany]
  · have h1 : db.map (claimOne (jsToKey uv)) = db :=
      claimOne_map_id db (jsToKey uv) hzero
    simp [postClaimRewards, huv, claimRewards, hzero, h1,
      REFERRER_REWARD_money, REFERRER_REWARD_gems]
  · simp [getLoad, hu, hnf]

/-- Witness for the amended C5 at a concrete input. -/
theorem expected_noops_not_errors_witness :
    (∃ r ∈ [rowA], r.referredId = "200") ∧
    getLoad [] "u1" = LoadResult.notFound :=
  ⟨⟨rowA, by simp, rfl⟩,
   (expected_noops_not_errors [rowA] [] "9" "200" "300" "u1"
     (JSValue.jsStr "999") 0 1 ⟨rowA, by simp, rfl⟩ (by decide) (by decide)
     (by decide) rfl).2.2.2⟩

/-- C6: save/load round trip: for a user `u` and a truthy payload `S`,
`save(u, S)` succeeds and an immediate `load(u)` answers 200 with exactly
`S`; the write is a full replacement (the only row for `u` is the new one)
and at most one row per user is preserved. -/
theorem save_load_round_trip (store : SaveStore) (u : String) (S : JSValue)
    (now : Nat) (hu : u ≠ "") (hS : jsTruthy S = true)
    (hnd : (store.map (fun r => r.userId)).Nodup) :
    (postSave store (JSValue.jsStr u) S now).2 = SaveResponse.saved ∧
    getLoad (postSave store (JSValue.jsStr u) S now).1 u = LoadResult.ok S ∧
    (∀ r ∈ (postSave store (JSValue.jsStr u) S now).1, r.userId = u →
      r = { userId := u, gameState := S, lastSaved := now }) ∧
    (((postSave store (JSValue.jsStr u) S now).1.map
        (fun r => r.userId)).Nodup) := by
  have htr : jsTruthy (JSValue.jsStr u) = true := by simp [jsTruthy, hu]
  have hps : postSave store (JSValue.jsStr u) S now =
      (upsertSave store u S now, SaveResponse.saved) := by
    simp [postSave, htr, hS, jsToKey]
  have hfind : findSave (upsertSave store u S now) u =
      some { userId := u, gameState := S, lastSaved := now } := by
    rw [findSave, upsertSave,
      find?_append_of_none _ _ _ (findSave_filter_ne store u)]
    simp
  refine ⟨by rw [hps], ?_, ?_, ?_⟩
  · rw [hps]
    simp [getLoad, hu, hfind]
  · intro r hr hru
    rw [hps] at hr
    have hr' : r ∈ upsertSave store u S now := hr
    rw [upsertSave, List.mem_append] at hr'
    cases hr' with
    | inl hmem =>
      rw [List.mem_filter] at hmem
      exact absurd hru (by simpa using hmem.2)
    | inr hmem =>
      simpa using hmem
  · rw [hps]
    show ((upsertSave store u S now).map (fun r => r.userId)).Nodup
    rw [upsertSave, List.map_append, List.nodup_append]
    refine ⟨?_, by simp, ?_⟩
    · exact hnd.sublist ((List.filter_sublist store).map (fun r => r.userId))
    · intro x hx hx'
      simp only [List.map_cons, List.map_nil, List.mem_singleton] at hx'
      subst hx'
      rw [List.mem_map] at hx
      obtain ⟨r, hr, hrx⟩ := hx
      rw [List.mem_filter] at hr
      exact absurd hrx (by simpa using hr.2)

/-- Witness for C6 at a concrete input. -/
theorem save_load_round_trip_witness :
    jsTruthy (JSValue.jsNum 7) = true ∧
    getLoad (postSave [] (JSValue.jsStr "u1") (JSValue.jsNum 7) 3).1 "u1" =
      LoadResult.ok (JSValue.jsNum 7) :=
  ⟨by decide,
   (save_load_round_trip [] "u1" (JSValue.jsNum 7) 3 (by decide) (by decide)
     (by simp)).2.1⟩

/-- C7: `save(userId, gameState)` always succeeds for every truthy `userId`
and truthy payload (the size bound is the body parser's 500kb limit,
enforced before the handler runs): it reports success, the row for this user
carries the new payload and the refreshed timestamp, and the resulting table
is the old one with every row of this user replaced by the new row. -/
theorem postSave_upserts (store : SaveStore) (userId gameState : JSValue)
    (now : Nat) (hu : jsTruthy userId = true)
    (hg : jsTruthy gameState = true) :
    (postSave store userId gameState now).2 = SaveResponse.saved ∧
    findSave (postSave store userId gameState now).1 (jsToKey userId) =
      some { userId := jsToKey userId, gameState := gameState,
             lastSaved := now } ∧
    (∀ r, r ∈ (postSave store userId gameState now).1 ↔
      ((r ∈ store ∧ r.userId ≠ jsToKey userId) ∨
        r = { userId := jsToKey userId, gameState := gameState,
              lastSaved := now })) := by
  have hps : postSave store userId gameState now =
      (upsertSave store (jsToKey userId) gameState now,
       SaveResponse.saved) := by
    simp [postSave, hu, hg]
  refine ⟨by rw [hps], ?_, ?_⟩
  · rw [hps]
    show findSave (upsertSave store (jsToKey userId) gameState now)
      (jsToKey userId) = _
    rw [findSave, upsertSave, find?_append_of_none _ _ _
      (findSave_filter_ne store (jsToKey userId))]
    simp
  · intro r
    rw [hps]
    show r ∈ upsertSave store (jsToKey userId) gameState now ↔ _
    rw [upsertSave, List.mem_append, List.mem_filter]
    simp

/-- Witness for C7 at a concrete input. -/
theorem postSave_upserts_witness :
    jsTruthy (JSValue.jsStr "u1") = true ∧
    (postSave [] (JSValue.jsStr "u1") (JSValue.jsNum 7) 3).2 =
      SaveResponse.saved :=
  ⟨by decide,
   (postSave_upserts [] (JSValue.jsStr "u1") (JSValue.jsNum 7) 3 (by decide)
     (by decide)).1⟩

end TapTycoon
